import Mathlib

/-!
Verification development for the atmos GRA2PES regridding subsystem.

The definitions below are shallow embeddings of the Python source:
  - src/utils/gra2pes_utils.py   (Gra2pesRegridder, RegriddedGra2pesHandler,
    get_daytype_from_int)
  - src/configs/gra2pes/gra2pes_config.py (Gra2pesConfig, Gra2pesRegridConfig)
  - src/workflows/gra2pes/gra2pes_regrid.py (load_regrid_save)
  - src/utils/datetime_utils.py  (DateTimeRange.get_dates_in_range)

Rationals stand for Python floats (exact real arithmetic), integers for
Python ints, association lists for attribute dictionaries, and Except for
raised exceptions.
-/

namespace Atmos

/-! ### Day type configuration (Gra2pesConfig.day_type_details) -/

/-- Weekday groupings from Gra2pesConfig.day_type_details, in the dict
insertion order of the source: satdy, sundy, weekdy. -/
def day_type_details : List (String × List Nat) :=
  [("satdy", [5]), ("sundy", [6]), ("weekdy", [0, 1, 2, 3, 4])]

/-- get_daytype_from_int from src/utils/gra2pes_utils.py: iterate the config
dict and return the first day type whose integer list holds day_int; the
none result models the ValueError raised when nothing matches. -/
def get_daytype_from_int (day_int : Nat) : Option String :=
  (day_type_details.find? (fun p => decide (day_int ∈ p.2))).map Prod.fst

/-- Integer list of one day type, as looked up by
config.day_type_details[day_type] in rework_ds_dt. -/
def day_type_ints (dt : String) : List Nat :=
  ((day_type_details.find? (fun p => p.1 == dt)).map Prod.snd).getD []

/-! ### Dates in a datetime range (DateTimeRange.get_dates_in_range) -/

/-- Python datetime instants modelled as integer seconds; the date() method
is floor division by 86400 seconds. -/
def dateOf (t : Int) : Int := t / 86400

/-- get_dates_in_range from src/utils/datetime_utils.py with fmt=None:
while current_date is at most end_dt, append current_date.date() and advance
current_date by one day (86400 seconds). -/
def get_dates_in_range (start_dt end_dt : Int) : List Int :=
  if start_dt ≤ end_dt then
    dateOf start_dt :: get_dates_in_range (start_dt + 86400) end_dt
  else []
termination_by (end_dt + 1 - start_dt).toNat
decreasing_by
  simp_wf
  omega

/-! ### Attribute pruning (Gra2pesRegridder.regrid) -/

/-- The keep_attrs allow list from Gra2pesRegridder.regrid. -/
def keep_attrs : List String :=
  ["sector", "year", "month", "day_type", "TITLE", "regrid_method"]

/-- The pruning loop in Gra2pesRegridder.regrid: every attribute whose key
is not in keep_attrs is deleted from the dict, the rest are kept. -/
def prune_attrs (attrs : List (String × String)) : List (String × String) :=
  attrs.filter (fun kv => decide (kv.1 ∈ keep_attrs))

/-! ### Projection construction (Gra2pesRegridder.proj4_from_ds) -/

/-- The pyproj.Proj parameters built by proj4_from_ds. -/
structure ProjParams where
  proj : String
  lat_1 : ℚ
  lat_2 : ℚ
  lat_0 : ℚ
  lon_0 : ℚ
  a : ℚ
  b : ℚ
deriving DecidableEq

/-- Projection related attributes of a gra2pes base dataset; none for
MAP_PROJ_CHAR models a dataset lacking that attribute (attribute access
raises). -/
structure BaseDsProjAttrs where
  MAP_PROJ_CHAR : Option String
  TRUELAT1 : ℚ
  TRUELAT2 : ℚ
  MOAD_CEN_LAT : ℚ
  STAND_LON : ℚ

/-- Body of the try block in proj4_from_ds: reading ds.MAP_PROJ_CHAR raises
when absent; a value other than Lambert Conformal raises a ValueError whose
message names the unrecognized value. -/
def map_proj_of_ds (mp : Option String) : Except String String :=
  match mp with
  | none => Except.error "AttributeError: MAP_PROJ_CHAR"
  | some v =>
    if v = "Lambert Conformal" then Except.ok "lcc"
    else Except.error ("Unknown map projection in ds.MAP_PROJ_CHAR: " ++ v)

/-- proj4_from_ds from src/utils/gra2pes_utils.py with default arguments
(map_proj=None, earth_rep=sphere): the bare except around the try block
replaces any failure, including the ValueError that names the value, with
the generic message; on success the Lambert Conformal Conic projection on a
perfect sphere of radius 6370000 m is built. -/
def proj4_from_ds (ds : BaseDsProjAttrs) : Except String ProjParams :=
  match map_proj_of_ds ds.MAP_PROJ_CHAR with
  | Except.error _ => Except.error "No map projection found"
  | Except.ok mp =>
      Except.ok
        { proj := mp, lat_1 := ds.TRUELAT1, lat_2 := ds.TRUELAT2,
          lat_0 := ds.MOAD_CEN_LAT, lon_0 := ds.STAND_LON,
          a := 6370000, b := 6370000 }

/-! ### Overwrite guard (load_regrid_save, gra2pes_regrid.py) -/

/-- Observable actions of load_regrid_save, in program order. -/
inductive RegridAction where
  | makedirs (p : String)
  | load_base (sector : String) (year month : Nat) (day_type : String)
  | regrid_ds
  | write (p : String)
deriving DecidableEq

/-- load_regrid_save from src/workflows/gra2pes/gra2pes_regrid.py, modelled
as the list of actions performed and the outcome, given the set of files
already on disk: create_regrid_subpath runs makedirs first, then the
existence check on full_save_path raises before any load, regrid or write;
otherwise the unit loads, regrids and writes its output file. -/
def load_regrid_save (existing_files : List String)
    (day_regrid_path sector : String) (year month : Nat) (day_type : String) :
    List RegridAction × Except String Unit :=
  let full_save_path := day_regrid_path ++ "/" ++ sector ++ "_regridded.nc"
  if full_save_path ∈ existing_files then
    ([RegridAction.makedirs day_regrid_path],
     Except.error ("Regridded dataset " ++ full_save_path ++
       " already exists, you may end up overwriting data"))
  else
    ([RegridAction.makedirs day_regrid_path,
      RegridAction.load_base sector year month day_type,
      RegridAction.regrid_ds,
      RegridAction.write full_save_path],
     Except.ok ())

/-! ### Output grid (Gra2pesRegridConfig.get_grid_out) -/

/-- Number of elements of numpy.arange(start, stop, step) for positive step,
over exact rationals: the ceiling of (stop - start) / step, clamped at zero. -/
def arangeLen (start stop step : ℚ) : ℕ := (Int.ceil ((stop - start) / step)).toNat

/-- numpy.arange(start, stop, step) over exact rationals: the stepped range
over the half open interval from start to stop. -/
def arange (start stop step : ℚ) : List ℚ :=
  (List.range (arangeLen start stop step)).map (fun i : Nat => start + (i : ℚ) * step)

/-- The grid_out dict of cell center and cell boundary coordinate arrays. -/
structure GridOut where
  lat : List ℚ
  lon : List ℚ
  lat_b : List ℚ
  lon_b : List ℚ

/-- get_grid_out from src/configs/gra2pes/gra2pes_config.py: centers are an
arange over each center range, boundaries the same arange with both ends
shifted by half a spacing unit. -/
def get_grid_out (lat_center_range lon_center_range : ℚ × ℚ)
    (lat_spacing lon_spacing : ℚ) : GridOut :=
  { lat := arange lat_center_range.1 lat_center_range.2 lat_spacing
    lon := arange lon_center_range.1 lon_center_range.2 lon_spacing
    lat_b := arange (lat_center_range.1 - lat_spacing / 2)
        (lat_center_range.2 + lat_spacing / 2) lat_spacing
    lon_b := arange (lon_center_range.1 - lon_spacing / 2)
        (lon_center_range.2 + lon_spacing / 2) lon_spacing }

/-! ### Input grid (Gra2pesRegridder.create_ingrid) -/

/-- Grid shape attributes, cell center coordinate arrays and attribute dict of
a gra2pes base dataset, as read by create_ingrid and create_regridder. -/
structure BaseGridDs where
  CEN_LON : ℚ
  CEN_LAT : ℚ
  DX : ℚ
  DY : ℚ
  west_east : Nat
  south_north : Nat
  XLAT : List (List ℚ)
  XLONG : List (List ℚ)
  attrs : List (String × String)

/-- numpy.meshgrid with default xy indexing: both outputs have one row per
element of ys, each row with one entry per element of xs. -/
def meshgrid (xs ys : List ℚ) : List (List ℚ) × List (List ℚ) :=
  (ys.map (fun _ => xs), ys.map (fun y => xs.map (fun _ => y)))

/-- Elementwise pyproj transform of a pair of equally shaped 2D coordinate
arrays, returning the two transformed coordinate arrays. -/
def transform2D (f : ℚ → ℚ → ℚ × ℚ) (xs ys : List (List ℚ)) :
    List (List ℚ) × List (List ℚ) :=
  ((xs.zip ys).map (fun rz => (rz.1.zip rz.2).map (fun p => (f p.1 p.2).1)),
   (xs.zip ys).map (fun rz => (rz.1.zip rz.2).map (fun p => (f p.1 p.2).2)))

/-- The bottom left corner coordinate x0 (resp. y0) computed in create_ingrid:
minus (n - 1) / 2 times the spacing, plus the domain center plane coordinate. -/
def ingrid_corner (center spacing : ℚ) (n : Nat) : ℚ :=
  -((n : ℚ) - 1) / 2 * spacing + center

/-- One axis of cell boundary plane coordinates in create_ingrid:
np.arange(n + 1) * spacing + corner - spacing / 2. -/
def ingrid_bounds (center spacing : ℚ) (n : Nat) : List ℚ :=
  (List.range (n + 1)).map
    (fun i : Nat => (i : ℚ) * spacing + ingrid_corner center spacing n - spacing / 2)

/-- The grid_in dict fed to xe.Regridder. -/
structure InGrid where
  lat : List (List ℚ)
  lon : List (List ℚ)
  lat_b : List (List ℚ)
  lon_b : List (List ℚ)

/-- create_ingrid from Gra2pesRegridder, with the two pyproj transformers
passed as functions: transform the domain center attributes to plane
coordinates, build the boundary plane mesh, inverse transform it, and take
the cell center geographic coordinates directly from XLAT and XLONG. -/
def create_ingrid (wgs_to_lcc lcc_to_wgs : ℚ → ℚ → ℚ × ℚ) (ds : BaseGridDs) : InGrid :=
  let en := wgs_to_lcc ds.CEN_LON ds.CEN_LAT
  let xs := ingrid_bounds en.1 ds.DX ds.west_east
  let ys := ingrid_bounds en.2 ds.DY ds.south_north
  let mesh := meshgrid xs ys
  let bc := transform2D lcc_to_wgs mesh.1 mesh.2
  { lat := ds.XLAT, lon := ds.XLONG, lat_b := bc.2, lon_b := bc.1 }

/-! ### Regridder caching (Gra2pesRegridder.regrid / create_regridder) -/

/-- The xESMF regridder object stored on the Gra2pesRegridder instance: the
grid pair and method it was built from stand for its weight set. -/
structure Regridder where
  grid_in : InGrid
  grid_out : GridOut
  method : String
  ds_attrs : List (String × String)

/-- create_regridder from Gra2pesRegridder: build grid_in from the dataset,
take grid_out and method from the regrid config, and record the dataset
attributes on the regridder. -/
def create_regridder (wgs_to_lcc lcc_to_wgs : ℚ → ℚ → ℚ × ℚ) (grid_out : GridOut)
    (method : String) (ds : BaseGridDs) : Regridder :=
  { grid_in := create_ingrid wgs_to_lcc lcc_to_wgs ds,
    grid_out := grid_out, method := method, ds_attrs := ds.attrs }

/-- State of a Gra2pesRegridder instance: the regridder attribute probed by
the try/except in regrid (none before the first call), plus an
instrumentation count of how many times create_regridder has run. -/
structure RegridderCache where
  regridder : Option Regridder
  builds : Nat

/-- One regrid call: try self.regridder; when the attribute is missing,
create the regridder and store it on the instance. Returns the new state and
the regridder (weight set) used by this call. -/
def regrid_call (wgs_to_lcc lcc_to_wgs : ℚ → ℚ → ℚ × ℚ) (grid_out : GridOut)
    (method : String) (st : RegridderCache) (ds : BaseGridDs) :
    RegridderCache × Regridder :=
  match st.regridder with
  | some r => (st, r)
  | none =>
    let r := create_regridder wgs_to_lcc lcc_to_wgs grid_out method ds
    ({ regridder := some r, builds := st.builds + 1 }, r)

/-- A sequence of regrid calls on one instance, threading the cached state. -/
def regrid_run (wgs_to_lcc lcc_to_wgs : ℚ → ℚ → ℚ × ℚ) (grid_out : GridOut)
    (method : String) (st : RegridderCache) (dss : List BaseGridDs) : RegridderCache :=
  dss.foldl (fun s ds => (regrid_call wgs_to_lcc lcc_to_wgs grid_out method s ds).1) st

/-! ### Temporal reconstruction (RegriddedGra2pesHandler.rework_ds_dt) -/

/-- Gregorian leap year rule, as used by calendar.monthrange. -/
def isLeap (y : Nat) : Bool := (y % 4 == 0 && y % 100 != 0) || y % 400 == 0

/-- Number of days in a month: the second component of
calendar.monthrange(year, month). -/
def daysInMonth (y m : Nat) : Nat :=
  if m = 2 then (if isLeap y then 29 else 28)
  else if m = 4 ∨ m = 6 ∨ m = 9 ∨ m = 11 then 30
  else 31

/-- Python date.weekday() (Monday 0 .. Sunday 6), computed by the Zeller
congruence for the Gregorian calendar. -/
def weekday (y m d : Nat) : Nat :=
  let yz := if m < 3 then y - 1 else y
  let mz := if m < 3 then m + 12 else m
  ((d + 13 * (mz + 1) / 5 + yz % 100 + yz % 100 / 4 + yz / 100 / 4 + 5 * (yz / 100)) % 7
    + 5) % 7

/-- The dates_in_month list of rework_ds_dt: the calendar dates of the month,
from day 1 through calendar.monthrange(year, month). -/
def dates_in_month (y m : Nat) : List Nat :=
  (List.range (daysInMonth y m)).map (fun i : Nat => i + 1)

/-- One entry of the dates_by_day_type dict of rework_ds_dt: the dates of the
month whose weekday falls in the integer list of that day type. -/
def dates_by_day_type (y m : Nat) (dt : String) : List Nat :=
  (dates_in_month y m).filter (fun d => decide (weekday y m d ∈ day_type_ints dt))

/-- Timestamp key of pd.Timestamp(date) + pd.Timedelta(hours=h), encoded
lexicographically in (year, month, day, hour); on valid calendar dates with
hours below 24 this coincides with chronological order. -/
def ts_key (y m d h : Nat) : Nat := ((y * 16 + m) * 32 + d) * 24 + h

/-- Day types in the insertion order of the dates_by_day_type dict literal in
rework_ds_dt. -/
def rework_day_types : List String := ["weekdy", "satdy", "sundy"]

/-- The timestamps one month of rework_ds_dt produces before the per month
sort: for each day type, one timestamp per (date, utc_hour) pair. -/
def month_datetimes_unsorted (y m hours : Nat) : List Nat :=
  rework_day_types.flatMap (fun dt =>
    (dates_by_day_type y m dt).flatMap (fun d =>
      (List.range hours).map (fun h => ts_key y m d h)))

/-- The per (year, month) body of rework_ds_dt: concatenate the bucket
expansions of the three day types and sort by datetime. -/
def month_datetimes (y m hours : Nat) : List Nat :=
  (month_datetimes_unsorted y m hours).mergeSort (fun a b => decide (a ≤ b))

/-- rework_ds_dt from RegriddedGra2pesHandler: loop over the year and month
coordinate values, build each month series, concatenate, and sort globally by
datetime. -/
def rework_ds_dt (years months : List Nat) (hours : Nat) : List Nat :=
  (years.flatMap (fun y => months.flatMap (fun m =>
    month_datetimes y m hours))).mergeSort (fun a b => decide (a ≤ b))

/-! ### Conservative weight application (xESMF) -/

/-- Modelled from the spec: the conservative weight computation and
application live in the external xESMF library (the xe.Regridder call in
create_regridder); per spec section 4.3 the weight of input cell i in output
cell o is the overlap area divided by the output cell area, and each output
cell value is the weighted sum of input cell values. An output cell nowhere
covered by the input grid has all overlaps zero. -/
def conservative_regrid (nIn nOut : Nat) (overlap : Fin nIn → Fin nOut → ℚ)
    (area_out : Fin nOut → ℚ) (f : Fin nIn → ℚ) : Fin nOut → ℚ :=
  fun o => (∑ i, overlap i o * f i) / area_out o

/-! ## Theorems -/

/-- One day of seconds shifts the date by exactly one. -/
theorem dateOf_add_day (s : Int) : dateOf (s + 86400) = dateOf s + 1 := by
  unfold dateOf
  omega

/-- Closed form of get_dates_in_range on a nonempty range. -/
theorem get_dates_in_range_spec (s e : Int) :
    s ≤ e → get_dates_in_range s e =
      (List.range (((e - s) / 86400).toNat + 1)).map (fun i : Nat => dateOf s + (i : Int)) := by
  induction s, e using get_dates_in_range.induct with
  | case1 s e h ih =>
    intro _
    rw [get_dates_in_range, if_pos h]
    by_cases h2 : s + 86400 ≤ e
    · rw [ih h2]
      have hn : ((e - s) / 86400).toNat = ((e - (s + 86400)) / 86400).toNat + 1 := by omega
      rw [hn]
      conv_rhs => rw [List.range_succ_eq_map, List.map_cons, List.map_map]
      refine congrArg₂ List.cons ?_ ?_
      · simp
      · refine List.map_congr_left ?_
        intro a _
        simp only [Function.comp_apply, dateOf_add_day]
        push_cast
        ring
    · rw [get_dates_in_range, if_neg h2]
      have hn : ((e - s) / 86400).toNat = 0 := by omega
      rw [hn]
      simp [List.range_succ]
  | case2 s e h =>
    intro hle
    exact absurd hle h

/-- C10: for start_dt at most end_dt, get_dates_in_range with fmt=None returns the
consecutive calendar dates starting at the date of start_dt, one per day, of length
floor((end_dt - start_dt) / 1 day) + 1, hence strictly ascending; when start_dt
exceeds end_dt the result is empty. -/
theorem C10_get_dates_in_range (s e : Int) :
    (s ≤ e → get_dates_in_range s e =
        (List.range (((e - s) / 86400).toNat + 1)).map (fun i : Nat => dateOf s + (i : Int))) ∧
    (s ≤ e → (get_dates_in_range s e).length = ((e - s) / 86400).toNat + 1) ∧
    (s ≤ e → (get_dates_in_range s e).Sorted (· < ·)) ∧
    (e < s → get_dates_in_range s e = []) := by
  refine ⟨get_dates_in_range_spec s e, ?_, ?_, ?_⟩
  · intro hle
    rw [get_dates_in_range_spec s e hle]
    simp
  · intro hle
    rw [get_dates_in_range_spec s e hle]
    refine List.Pairwise.map _ ?_ (List.pairwise_lt_range _)
    intro a b hab
    have : (a : Int) < (b : Int) := by exact_mod_cast hab
    omega
  · intro h
    rw [get_dates_in_range, if_neg (by omega)]

/-- Witness for C10 at a concrete two day range. -/
theorem C10_get_dates_in_range_witness :
    ((0 : Int) ≤ 172800) ∧
    get_dates_in_range 0 172800 =
      (List.range ((((172800 : Int) - 0) / 86400).toNat + 1)).map (fun i : Nat => dateOf 0 + (i : Int)) :=
  ⟨by decide, (C10_get_dates_in_range 0 172800).1 (by decide)⟩

/-- C8: the day type classification is total and fixed on weekday integers 0 to 6:
0 to 4 map to weekdy, 5 to satdy, 6 to sundy, and each integer lies in exactly one
of the three bucket lists of day_type_details. -/
theorem C8_daytype_total (d : Nat) (h : d < 7) :
    get_daytype_from_int d =
      some (if d ≤ 4 then "weekdy" else if d = 5 then "satdy" else "sundy") ∧
    day_type_details.countP (fun p => decide (d ∈ p.2)) = 1 := by
  interval_cases d <;> exact ⟨by decide, by decide⟩

/-- Witness for C8 at weekday 3 (Thursday). -/
theorem C8_daytype_total_witness :
    3 < 7 ∧
    (get_daytype_from_int 3 =
        some (if 3 ≤ 4 then "weekdy" else if 3 = 5 then "satdy" else "sundy") ∧
      day_type_details.countP (fun p => decide (3 ∈ p.2)) = 1) :=
  ⟨by decide, C8_daytype_total 3 (by decide)⟩

/-- C4: after the pruning loop in regrid, an attribute key survives exactly when it
is both in the keep_attrs allow list and present before pruning. -/
theorem C4_attr_pruning (attrs : List (String × String)) (k : String) :
    k ∈ (prune_attrs attrs).map Prod.fst ↔
      (k ∈ keep_attrs ∧ k ∈ attrs.map Prod.fst) := by
  simp only [prune_attrs, List.mem_map, List.mem_filter, decide_eq_true_eq]
  constructor
  · rintro ⟨kv, ⟨hmem, hkeep⟩, rfl⟩
    exact ⟨hkeep, kv, hmem, rfl⟩
  · rintro ⟨hkeep, kv, hmem, rfl⟩
    exact ⟨kv, ⟨hmem, hkeep⟩, rfl⟩

/-- C5 (code bug): on a dataset declaring MAP_PROJ_CHAR = Polar Stereographic,
proj4_from_ds does fail rather than default, but the bare except replaces the inner
ValueError, which names the unrecognized value, with the generic message
No map projection found, in which the offending value does not occur. -/
theorem C5_generic_error_swallows_value :
    proj4_from_ds
        { MAP_PROJ_CHAR := some "Polar Stereographic", TRUELAT1 := 0, TRUELAT2 := 0,
          MOAD_CEN_LAT := 0, STAND_LON := 0 }
      = Except.error "No map projection found" ∧
    map_proj_of_ds (some "Polar Stereographic")
      = Except.error "Unknown map projection in ds.MAP_PROJ_CHAR: Polar Stereographic" ∧
    ¬ ("Polar Stereographic".toList <:+: "No map projection found".toList) := by
  refine ⟨rfl, rfl, ?_⟩
  decide

/-- C9: when the target output file already exists, load_regrid_save raises after
only the makedirs of create_regrid_subpath: it never loads the base data, never
regrids, and never writes over the existing file. -/
theorem C9_overwrite_guard (existing : List String) (dir sector : String)
    (year month : Nat) (day_type : String)
    (h : dir ++ "/" ++ sector ++ "_regridded.nc" ∈ existing) :
    (load_regrid_save existing dir sector year month day_type).1
        = [RegridAction.makedirs dir] ∧
    (load_regrid_save existing dir sector year month day_type).2
        = Except.error ("Regridded dataset " ++ (dir ++ "/" ++ sector ++ "_regridded.nc") ++
            " already exists, you may end up overwriting data") := by
  simp only [load_regrid_save]
  rw [if_pos h]
  exact ⟨rfl, rfl⟩

/-- Witness for C9: an existing AG output file for June 2021 weekdy. -/
theorem C9_overwrite_guard_witness :
    ("d" ++ "/" ++ "AG" ++ "_regridded.nc" ∈ ["d/AG_regridded.nc"]) ∧
    ((load_regrid_save ["d/AG_regridded.nc"] "d" "AG" 2021 6 "weekdy").1
        = [RegridAction.makedirs "d"] ∧
      (load_regrid_save ["d/AG_regridded.nc"] "d" "AG" 2021 6 "weekdy").2
        = Except.error ("Regridded dataset " ++ ("d" ++ "/" ++ "AG" ++ "_regridded.nc") ++
            " already exists, you may end up overwriting data")) :=
  ⟨by decide, C9_overwrite_guard ["d/AG_regridded.nc"] "d" "AG" 2021 6 "weekdy" (by decide)⟩

/-- Shifting both arange ends outward by half a spacing unit adds exactly one
element, for a positive spacing and a nonempty range. -/
theorem arangeLen_shift_half (lo hi sp : ℚ) (hsp : 0 < sp) (hle : lo ≤ hi) :
    arangeLen (lo - sp / 2) (hi + sp / 2) sp = arangeLen lo hi sp + 1 := by
  unfold arangeLen
  have hq : (hi + sp / 2 - (lo - sp / 2)) / sp = (hi - lo) / sp + 1 := by
    field_simp
    ring
  rw [hq, Int.ceil_add_one]
  have h0 : (0 : ℤ) ≤ ⌈(hi - lo) / sp⌉ := Int.ceil_nonneg (div_nonneg (by linarith) hsp.le)
  omega

/-- C7: for positive spacings and nonempty center ranges, get_grid_out makes the
boundary array on each axis the stepped range shifted by half a spacing unit on
each end, with exactly one more element than the center array. -/
theorem C7_get_grid_out (latR lonR : ℚ × ℚ) (lat_sp lon_sp : ℚ)
    (hlat : 0 < lat_sp) (hlon : 0 < lon_sp)
    (hlatR : latR.1 ≤ latR.2) (hlonR : lonR.1 ≤ lonR.2) :
    (get_grid_out latR lonR lat_sp lon_sp).lat_b.length
        = (get_grid_out latR lonR lat_sp lon_sp).lat.length + 1 ∧
    (get_grid_out latR lonR lat_sp lon_sp).lon_b.length
        = (get_grid_out latR lonR lat_sp lon_sp).lon.length + 1 ∧
    (get_grid_out latR lonR lat_sp lon_sp).lat_b
        = (List.range (arangeLen latR.1 latR.2 lat_sp + 1)).map
            (fun i : Nat => latR.1 - lat_sp / 2 + (i : ℚ) * lat_sp) ∧
    (get_grid_out latR lonR lat_sp lon_sp).lon_b
        = (List.range (arangeLen lonR.1 lonR.2 lon_sp + 1)).map
            (fun i : Nat => lonR.1 - lon_sp / 2 + (i : ℚ) * lon_sp) := by
  have hlatShift := arangeLen_shift_half latR.1 latR.2 lat_sp hlat hlatR
  have hlonShift := arangeLen_shift_half lonR.1 lonR.2 lon_sp hlon hlonR
  refine ⟨?_, ?_, ?_, ?_⟩
  · simp [get_grid_out, arange, hlatShift]
  · simp [get_grid_out, arange, hlonShift]
  · simp [get_grid_out, arange, hlatShift]
  · simp [get_grid_out, arange, hlonShift]

/-- Witness for C7 on the unit spaced ranges (0, 2) and (0, 3). -/
theorem C7_get_grid_out_witness :
    ((0 : ℚ) < 1 ∧ ((0 : ℚ), (2 : ℚ)).1 ≤ ((0 : ℚ), (2 : ℚ)).2 ∧
      ((0 : ℚ), (3 : ℚ)).1 ≤ ((0 : ℚ), (3 : ℚ)).2) ∧
    ((get_grid_out ((0 : ℚ), (2 : ℚ)) ((0 : ℚ), (3 : ℚ)) 1 1).lat_b.length
        = (get_grid_out ((0 : ℚ), (2 : ℚ)) ((0 : ℚ), (3 : ℚ)) 1 1).lat.length + 1 ∧
      (get_grid_out ((0 : ℚ), (2 : ℚ)) ((0 : ℚ), (3 : ℚ)) 1 1).lon_b.length
        = (get_grid_out ((0 : ℚ), (2 : ℚ)) ((0 : ℚ), (3 : ℚ)) 1 1).lon.length + 1 ∧
      (get_grid_out ((0 : ℚ), (2 : ℚ)) ((0 : ℚ), (3 : ℚ)) 1 1).lat_b
        = (List.range (arangeLen ((0 : ℚ), (2 : ℚ)).1 ((0 : ℚ), (2 : ℚ)).2 1 + 1)).map
            (fun i : Nat => ((0 : ℚ), (2 : ℚ)).1 - 1 / 2 + (i : ℚ) * 1) ∧
      (get_grid_out ((0 : ℚ), (2 : ℚ)) ((0 : ℚ), (3 : ℚ)) 1 1).lon_b
        = (List.range (arangeLen ((0 : ℚ), (3 : ℚ)).1 ((0 : ℚ), (3 : ℚ)).2 1 + 1)).map
            (fun i : Nat => ((0 : ℚ), (3 : ℚ)).1 - 1 / 2 + (i : ℚ) * 1)) :=
  ⟨⟨by norm_num, by norm_num, by norm_num⟩,
    C7_get_grid_out ((0 : ℚ), (2 : ℚ)) ((0 : ℚ), (3 : ℚ)) 1 1
      (by norm_num) (by norm_num) (by norm_num) (by norm_num)⟩

/-- Element formula for one axis of boundary plane coordinates. -/
theorem ingrid_bounds_getD (e sp : ℚ) (n i : Nat) (h : i < n + 1) :
    (ingrid_bounds e sp n).getD i 0
      = (i : ℚ) * sp + ingrid_corner e sp n - sp / 2 := by
  unfold ingrid_bounds
  rw [List.getD_eq_getElem?_getD, List.getElem?_map, List.getElem?_range h]
  rfl

/-- C6: create_ingrid derives the bottom left corner as center minus
(n - 1) / 2 times spacing on each axis, builds the (ny + 1) by (nx + 1)
boundary plane mesh offset by half a cell from the corner, and the midpoint of
two adjacent boundary coordinates is the corresponding cell center plane
coordinate corner + i * spacing. -/
theorem C6_create_ingrid (wgs_to_lcc lcc_to_wgs : ℚ → ℚ → ℚ × ℚ) (ds : BaseGridDs)
    (e sp : ℚ) (n : Nat) :
    ingrid_corner e sp n = e - ((n : ℚ) - 1) / 2 * sp ∧
    (ingrid_bounds e sp n).length = n + 1 ∧
    (∀ i : Nat, i < n + 1 →
      (ingrid_bounds e sp n).getD i 0
        = ingrid_corner e sp n + ((i : ℚ) - 1 / 2) * sp) ∧
    (∀ i : Nat, i < n →
      ((ingrid_bounds e sp n).getD i 0 + (ingrid_bounds e sp n).getD (i + 1) 0) / 2
        = ingrid_corner e sp n + (i : ℚ) * sp) ∧
    (create_ingrid wgs_to_lcc lcc_to_wgs ds).lat_b.length = ds.south_north + 1 ∧
    (create_ingrid wgs_to_lcc lcc_to_wgs ds).lon_b.length = ds.south_north + 1 ∧
    (∀ row ∈ (create_ingrid wgs_to_lcc lcc_to_wgs ds).lat_b,
      row.length = ds.west_east + 1) ∧
    (∀ row ∈ (create_ingrid wgs_to_lcc lcc_to_wgs ds).lon_b,
      row.length = ds.west_east + 1) := by
  refine ⟨by unfold ingrid_corner; ring, by simp [ingrid_bounds], ?_, ?_, ?_, ?_, ?_, ?_⟩
  · intro i hi
    rw [ingrid_bounds_getD e sp n i hi]
    ring
  · intro i hi
    rw [ingrid_bounds_getD e sp n i (by omega),
      ingrid_bounds_getD e sp n (i + 1) (by omega)]
    push_cast
    ring
  · simp [create_ingrid, transform2D, meshgrid, ingrid_bounds]
  · simp [create_ingrid, transform2D, meshgrid, ingrid_bounds]
  · intro row hrow
    simp only [create_ingrid, transform2D, List.mem_map] at hrow
    obtain ⟨⟨a, b⟩, hab, rfl⟩ := hrow
    have hmem := List.of_mem_zip hab
    simp only [meshgrid, List.mem_map] at hmem
    obtain ⟨⟨y1, hy1, rfl⟩, ⟨y2, hy2, rfl⟩⟩ := hmem
    simp [ingrid_bounds]
  · intro row hrow
    simp only [create_ingrid, transform2D, List.mem_map] at hrow
    obtain ⟨⟨a, b⟩, hab, rfl⟩ := hrow
    have hmem := List.of_mem_zip hab
    simp only [meshgrid, List.mem_map] at hmem
    obtain ⟨⟨y1, hy1, rfl⟩, ⟨y2, hy2, rfl⟩⟩ := hmem
    simp [ingrid_bounds]

/-- Once the regridder attribute is set, any further regrid calls leave the
instance state unchanged. -/
theorem regrid_run_frozen (f g : ℚ → ℚ → ℚ × ℚ) (gout : GridOut) (method : String)
    (r : Regridder) (b : Nat) (dss : List BaseGridDs) :
    regrid_run f g gout method ⟨some r, b⟩ dss = ⟨some r, b⟩ := by
  induction dss with
  | nil => rfl
  | cons d t ih => simpa [regrid_run, regrid_call] using ih

/-- C2: starting uninitialized, a first regrid call builds the regridder from
the first dataset and any sequence of further calls leaves create_regridder run
exactly once with the same stored weight set; moreover a call on an initialized
instance returns the cached regridder and does not change the state. -/
theorem C2_weights_once (f g : ℚ → ℚ → ℚ × ℚ) (gout : GridOut) (method : String)
    (ds : BaseGridDs) (dss : List BaseGridDs) (r : Regridder) (b : Nat)
    (ds2 : BaseGridDs) :
    regrid_run f g gout method ⟨none, 0⟩ (ds :: dss)
      = ⟨some (create_regridder f g gout method ds), 1⟩ ∧
    regrid_call f g gout method ⟨some r, b⟩ ds2 = (⟨some r, b⟩, r) := by
  constructor
  · show regrid_run f g gout method (regrid_call f g gout method ⟨none, 0⟩ ds).1 dss = _
    exact regrid_run_frozen f g gout method (create_regridder f g gout method ds) 1 dss
  · rfl

/-- Calendar anchors matching the spec test vector: June 2021 has 30 days,
June 5 2021 is a Saturday, June 6 a Sunday, June 7 a Monday, and February has
29 days in 2020 but 28 in 2021. -/
theorem calendar_anchors :
    daysInMonth 2021 6 = 30 ∧ daysInMonth 2020 2 = 29 ∧ daysInMonth 2021 2 = 28 ∧
    weekday 2021 6 5 = 5 ∧ weekday 2021 6 6 = 6 ∧ weekday 2021 6 7 = 0 ∧
    weekday 2021 6 1 = 1 := by
  decide

/-- The weekday function always lands in 0..6. -/
theorem weekday_lt_7 (y m d : Nat) : weekday y m d < 7 := by
  simp only [weekday]
  omega

/-- Every weekday integer below 7 lies in exactly one of the three day type
integer lists. -/
theorem daytype_indicator (w : Nat) (hw : w < 7) :
    (decide (w ∈ day_type_ints "weekdy")).toNat
      + (decide (w ∈ day_type_ints "satdy")).toNat
      + (decide (w ∈ day_type_ints "sundy")).toNat = 1 := by
  interval_cases w <;> decide

/-- Every weekday integer below 7 lies in the integer list of some day type. -/
theorem daytype_exists (w : Nat) (hw : w < 7) :
    ∃ dt ∈ rework_day_types, w ∈ day_type_ints dt := by
  interval_cases w
  · exact ⟨"weekdy", by decide, by decide⟩
  · exact ⟨"weekdy", by decide, by decide⟩
  · exact ⟨"weekdy", by decide, by decide⟩
  · exact ⟨"weekdy", by decide, by decide⟩
  · exact ⟨"weekdy", by decide, by decide⟩
  · exact ⟨"satdy", by decide, by decide⟩
  · exact ⟨"sundy", by decide, by decide⟩

/-- Distinct day types have disjoint integer lists on weekdays below 7. -/
theorem daytype_ints_disjoint (dt1 dt2 : String) (h1 : dt1 ∈ rework_day_types)
    (h2 : dt2 ∈ rework_day_types) (hne : dt1 ≠ dt2) (w : Nat) (hw : w < 7) :
    ¬(w ∈ day_type_ints dt1 ∧ w ∈ day_type_ints dt2) := by
  fin_cases h1 <;> fin_cases h2 <;> first
    | exact absurd rfl hne
    | (interval_cases w <;> decide)

/-- Every month length is between 28 and 31 days. -/
theorem daysInMonth_bounds (y m : Nat) : 28 ≤ daysInMonth y m ∧ daysInMonth y m ≤ 31 := by
  unfold daysInMonth
  split
  · split <;> omega
  · split <;> omega

/-- When each element satisfies exactly one of three predicates, the three
filtered sublists together have the length of the list. -/
theorem length_filter_three (l : List Nat) (p1 p2 p3 : Nat → Bool)
    (h : ∀ x ∈ l, (p1 x).toNat + (p2 x).toNat + (p3 x).toNat = 1) :
    (l.filter p1).length + (l.filter p2).length + (l.filter p3).length = l.length := by
  induction l with
  | nil => simp
  | cons a t ih =>
    have ha := h a (List.mem_cons_self a t)
    have ih2 := ih (fun x hx => h x (List.mem_cons_of_mem a hx))
    simp only [List.filter_cons, List.length_cons]
    cases hb1 : p1 a <;> cases hb2 : p2 a <;> cases hb3 : p3 a <;>
      rw [hb1, hb2, hb3] at ha <;> simp_all <;> omega

/-- The dates of a month list one date per day of the month. -/
theorem dates_in_month_length (y m : Nat) :
    (dates_in_month y m).length = daysInMonth y m := by
  simp [dates_in_month]

/-- Dates of a month lie between 1 and 31. -/
theorem mem_dates_in_month (y m d : Nat) (h : d ∈ dates_in_month y m) :
    1 ≤ d ∧ d ≤ 31 := by
  simp only [dates_in_month, List.mem_map, List.mem_range] at h
  obtain ⟨i, hi, rfl⟩ := h
  have h31 := (daysInMonth_bounds y m).2
  omega

/-- The dates of a month are pairwise distinct. -/
theorem dates_in_month_nodup (y m : Nat) : (dates_in_month y m).Nodup :=
  (List.nodup_range _).map (fun a b hab => by omega)

/-- One bucket expansion yields one timestamp per date and hour. -/
theorem bucket_expansion_length (y m H : Nat) (ds : List Nat) :
    (ds.flatMap (fun d => (List.range H).map (fun h => ts_key y m d h))).length
      = ds.length * H := by
  induction ds with
  | nil => simp
  | cons a t ih =>
    simp only [List.flatMap_cons, List.length_append, List.length_map,
      List.length_range, List.length_cons, ih]
    ring

/-- Pre sort, one month yields (days in month) times hours timestamps. -/
theorem month_datetimes_unsorted_length (y m H : Nat) :
    (month_datetimes_unsorted y m H).length = daysInMonth y m * H := by
  have hpart := length_filter_three (dates_in_month y m)
      (fun d => decide (weekday y m d ∈ day_type_ints "weekdy"))
      (fun d => decide (weekday y m d ∈ day_type_ints "satdy"))
      (fun d => decide (weekday y m d ∈ day_type_ints "sundy"))
      (fun x _ => daytype_indicator (weekday y m x) (weekday_lt_7 y m x))
  simp only [month_datetimes_unsorted, rework_day_types, List.flatMap_cons,
    List.flatMap_nil, List.append_nil, List.length_append, bucket_expansion_length,
    dates_by_day_type]
  rw [← dates_in_month_length y m, ← hpart]
  ring

/-- Within one bucket expansion the timestamps are pairwise distinct. -/
theorem bucket_expansion_nodup (y m H : Nat) (hH : H ≤ 24) (ds : List Nat)
    (hds : ds.Nodup) :
    (ds.flatMap (fun d => (List.range H).map (fun h => ts_key y m d h))).Nodup := by
  rw [List.nodup_flatMap]
  constructor
  · intro d _
    refine List.Nodup.map ?_ (List.nodup_range H)
    intro a b hab
    simp only [ts_key] at hab
    omega
  · refine hds.imp ?_
    intro d1 d2 hne x hx1 hx2
    simp only [List.mem_map, List.mem_range] at hx1 hx2
    obtain ⟨h1, hh1, rfl⟩ := hx1
    obtain ⟨h2, hh2, heq⟩ := hx2
    have hd : d2 = d1 ∧ h2 = h1 := by
      simp only [ts_key] at heq
      omega
    exact hne hd.1.symm

/-- Bucket expansions of distinct day types share no timestamp. -/
theorem bucket_expansions_disjoint (y m H : Nat) (hH : H ≤ 24) (dt1 dt2 : String)
    (h1 : dt1 ∈ rework_day_types) (h2 : dt2 ∈ rework_day_types) (hne : dt1 ≠ dt2) :
    List.Disjoint
      ((dates_by_day_type y m dt1).flatMap
        (fun d => (List.range H).map (fun h => ts_key y m d h)))
      ((dates_by_day_type y m dt2).flatMap
        (fun d => (List.range H).map (fun h => ts_key y m d h))) := by
  intro x hx1 hx2
  simp only [List.mem_flatMap, List.mem_map, List.mem_range, dates_by_day_type,
    List.mem_filter, decide_eq_true_eq] at hx1 hx2
  obtain ⟨d1, ⟨hd1, hw1⟩, hr1, hlt1, hxeq1⟩ := hx1
  obtain ⟨d2, ⟨hd2, hw2⟩, hr2, hlt2, hxeq2⟩ := hx2
  rw [← hxeq1] at hxeq2
  have hd : d2 = d1 ∧ hr2 = hr1 := by
    simp only [ts_key] at hxeq2
    omega
  rw [hd.1] at hw2
  exact daytype_ints_disjoint dt1 dt2 h1 h2 hne (weekday y m d1) (weekday_lt_7 y m d1)
    ⟨hw1, hw2⟩

/-- Pre sort, one month of timestamps has no duplicates. -/
theorem month_datetimes_unsorted_nodup (y m H : Nat) (hH : H ≤ 24) :
    (month_datetimes_unsorted y m H).Nodup := by
  rw [month_datetimes_unsorted, List.nodup_flatMap]
  constructor
  · intro dt _
    exact bucket_expansion_nodup y m H hH _ ((dates_in_month_nodup y m).filter _)
  · refine List.Pairwise.imp_of_mem ?_ (by decide : rework_day_types.Nodup)
    intro a b ha hb hne
    exact bucket_expansions_disjoint y m H hH a b ha hb hne

/-- mergeSort with the decidable order on naturals sorts ascending. -/
theorem mergeSort_sorted_le (l : List Nat) :
    (l.mergeSort (fun a b => decide (a ≤ b))).Sorted (fun a b => a ≤ b) := by
  have h := @List.sorted_mergeSort Nat (fun a b => decide (a ≤ b))
      (fun a b c hab hbc =>
        decide_eq_true (Nat.le_trans (of_decide_eq_true hab) (of_decide_eq_true hbc)))
      (fun a b => by simp [Nat.le_total]) l
  exact h.imp (fun hab => of_decide_eq_true hab)

/-- Sorting a duplicate free list of naturals gives a strictly ascending list. -/
theorem sorted_lt_of_nodup_mergeSort (l : List Nat) (h : l.Nodup) :
    (l.mergeSort (fun a b => decide (a ≤ b))).Sorted (fun a b => a < b) := by
  have hs := mergeSort_sorted_le l
  have hn : (l.mergeSort (fun a b => decide (a ≤ b))).Nodup :=
    ((List.mergeSort_perm l _).nodup_iff).mpr h
  exact List.Sorted.lt_of_le hs hn

/-- Every timestamp of a month series decomposes as a (date, hour) key of that
month, with the date between 1 and 31 and the hour below the hour count. -/
theorem mem_month_datetimes (y m H x : Nat) (hx : x ∈ month_datetimes y m H) :
    ∃ d hr, 1 ≤ d ∧ d ≤ 31 ∧ hr < H ∧ x = ts_key y m d hr := by
  rw [month_datetimes] at hx
  have hx2 := (List.mergeSort_perm _ _).mem_iff.mp hx
  simp only [month_datetimes_unsorted, List.mem_flatMap, List.mem_map,
    List.mem_range, dates_by_day_type, List.mem_filter] at hx2
  obtain ⟨dt, hdt, d, ⟨hd, hw⟩, hr, hhr, hxeq⟩ := hx2
  have hdm := mem_dates_in_month y m d hd
  exact ⟨d, hr, hdm.1, hdm.2, hhr, hxeq.symm⟩

/-- Each (date, hour) pair of the month occurs exactly once in the sorted
month series. -/
theorem month_datetimes_count (y m H : Nat) (hH : H ≤ 24) (d hr : Nat)
    (hd : d ∈ dates_in_month y m) (hhr : hr < H) :
    (month_datetimes y m H).count (ts_key y m d hr) = 1 := by
  have hnodup : (month_datetimes y m H).Nodup :=
    (List.mergeSort_perm _ _).nodup_iff.mpr (month_datetimes_unsorted_nodup y m H hH)
  obtain ⟨dt, hdtmem, hwmem⟩ := daytype_exists (weekday y m d) (weekday_lt_7 y m d)
  have hmem : ts_key y m d hr ∈ month_datetimes_unsorted y m H := by
    simp only [month_datetimes_unsorted, List.mem_flatMap, List.mem_map,
      List.mem_range, dates_by_day_type, List.mem_filter]
    exact ⟨dt, hdtmem, d, ⟨hd, decide_eq_true hwmem⟩, hr, hhr, rfl⟩
  have hmem2 : ts_key y m d hr ∈ month_datetimes y m H :=
    (List.mergeSort_perm _ _).mem_iff.mpr hmem
  exact List.count_eq_one_of_mem hnodup hmem2

/-- The concatenation of the month series of distinct years and distinct valid
months has no duplicate timestamp. -/
theorem rework_concat_nodup (years months : List Nat) (H : Nat) (hH : H ≤ 24)
    (hmonths : ∀ m2 ∈ months, 1 ≤ m2 ∧ m2 ≤ 12)
    (hy : years.Nodup) (hm : months.Nodup) :
    (years.flatMap (fun y => months.flatMap (fun m => month_datetimes y m H))).Nodup := by
  rw [List.nodup_flatMap]
  constructor
  · intro y _
    rw [List.nodup_flatMap]
    constructor
    · intro m _
      exact (List.mergeSort_perm _ _).nodup_iff.mpr
        (month_datetimes_unsorted_nodup y m H hH)
    · refine List.Pairwise.imp_of_mem ?_ hm
      intro m1 m2 hm1 hm2 hne x hx1 hx2
      obtain ⟨d1, h1, hb1a, hb1b, hlt1, hk1⟩ := mem_month_datetimes y m1 H x hx1
      obtain ⟨d2, h2, hb2a, hb2b, hlt2, hk2⟩ := mem_month_datetimes y m2 H x hx2
      have hm1b := hmonths m1 hm1
      have hm2b := hmonths m2 hm2
      rw [hk1] at hk2
      simp only [ts_key] at hk2
      exact hne (by omega)
  · refine List.Pairwise.imp_of_mem ?_ hy
    intro y1 y2 hy1 hy2 hne x hx1 hx2
    simp only [List.mem_flatMap] at hx1 hx2
    obtain ⟨m1, hm1, hmx1⟩ := hx1
    obtain ⟨m2, hm2, hmx2⟩ := hx2
    obtain ⟨d1, h1, hb1a, hb1b, hlt1, hk1⟩ := mem_month_datetimes y1 m1 H x hmx1
    obtain ⟨d2, h2, hb2a, hb2b, hlt2, hk2⟩ := mem_month_datetimes y2 m2 H x hmx2
    have hm1b := hmonths m1 hm1
    have hm2b := hmonths m2 hm2
    rw [hk1] at hk2
    simp only [ts_key] at hk2
    exact hne (by omega)

/-- C3: with at most 24 utc hours per day, the month series of rework_ds_dt has
exactly (days in month) times (hours) timestamps; every date of the month lies
in exactly one day type bucket; each (date, hour) pair yields exactly one
timestamp; the month series is strictly increasing; and the global
concatenation over distinct years and distinct valid months, once sorted, is
strictly increasing with no duplicate timestamps. -/
theorem C3_rework_ds_dt (y m H : Nat) (hH : H ≤ 24) :
    (month_datetimes y m H).length = daysInMonth y m * H ∧
    (∀ d ∈ dates_in_month y m,
      (decide (weekday y m d ∈ day_type_ints "weekdy")).toNat
        + (decide (weekday y m d ∈ day_type_ints "satdy")).toNat
        + (decide (weekday y m d ∈ day_type_ints "sundy")).toNat = 1) ∧
    (∀ d ∈ dates_in_month y m, ∀ hr < H,
      (month_datetimes y m H).count (ts_key y m d hr) = 1) ∧
    (month_datetimes y m H).Sorted (fun a b => a < b) ∧
    (∀ years months : List Nat, years.Nodup → months.Nodup →
      (∀ m2 ∈ months, 1 ≤ m2 ∧ m2 ≤ 12) →
      (rework_ds_dt years months H).Sorted (fun a b => a < b)) := by
  refine ⟨?_, ?_, ?_, ?_, ?_⟩
  · rw [month_datetimes, List.length_mergeSort]
    exact month_datetimes_unsorted_length y m H
  · intro d _
    exact daytype_indicator (weekday y m d) (weekday_lt_7 y m d)
  · intro d hd hr hhr
    exact month_datetimes_count y m H hH d hr hd hhr
  · exact sorted_lt_of_nodup_mergeSort _ (month_datetimes_unsorted_nodup y m H hH)
  · intro years months hy hm hmonths
    exact sorted_lt_of_nodup_mergeSort _ (rework_concat_nodup years months H hH hmonths hy hm)

/-- Witness for C3 at June 2021 with 24 utc hours. -/
theorem C3_rework_ds_dt_witness :
    24 ≤ 24 ∧
    ((month_datetimes 2021 6 24).length = daysInMonth 2021 6 * 24 ∧
      (∀ d ∈ dates_in_month 2021 6,
        (decide (weekday 2021 6 d ∈ day_type_ints "weekdy")).toNat
          + (decide (weekday 2021 6 d ∈ day_type_ints "satdy")).toNat
          + (decide (weekday 2021 6 d ∈ day_type_ints "sundy")).toNat = 1) ∧
      (∀ d ∈ dates_in_month 2021 6, ∀ hr < 24,
        (month_datetimes 2021 6 24).count (ts_key 2021 6 d hr) = 1) ∧
      (month_datetimes 2021 6 24).Sorted (fun a b => a < b) ∧
      (∀ years months : List Nat, years.Nodup → months.Nodup →
        (∀ m2 ∈ months, 1 ≤ m2 ∧ m2 ≤ 12) →
        (rework_ds_dt years months 24).Sorted (fun a b => a < b))) :=
  ⟨by decide, C3_rework_ds_dt 2021 6 24 (by decide)⟩

/-- C1: conservative regridding preserves the area weighted integral exactly
(hence within any relative tolerance): when every output cell has positive
area and every input cell is fully covered by the output grid (its overlaps
sum to its own area), the sum of output values times output cell areas equals
the sum of input values times input cell areas; output cells with no input
coverage have all overlaps zero and contribute nothing. -/
theorem C1_conservation (nIn nOut : Nat) (overlap : Fin nIn → Fin nOut → ℚ)
    (area_in : Fin nIn → ℚ) (area_out : Fin nOut → ℚ) (f : Fin nIn → ℚ)
    (hpos : ∀ o, area_out o ≠ 0)
    (hcov : ∀ i, (∑ o, overlap i o) = area_in i) :
    (∑ o, conservative_regrid nIn nOut overlap area_out f o * area_out o)
      = ∑ i, f i * area_in i := by
  unfold conservative_regrid
  have h1 : ∀ o : Fin nOut,
      (∑ i, overlap i o * f i) / area_out o * area_out o = ∑ i, overlap i o * f i :=
    fun o => div_mul_cancel₀ _ (hpos o)
  rw [Finset.sum_congr rfl (fun o _ => h1 o), Finset.sum_comm]
  refine Finset.sum_congr rfl (fun i _ => ?_)
  rw [← hcov i, Finset.mul_sum]
  refine Finset.sum_congr rfl (fun o _ => ?_)
  ring

/-- Witness for C1 on a one cell grid pair with unit areas and value 2. -/
theorem C1_conservation_witness :
    ((∀ _o : Fin 1, (1 : ℚ) ≠ 0) ∧ (∀ _i : Fin 1, (∑ _o : Fin 1, (1 : ℚ)) = 1)) ∧
    (∑ o : Fin 1, conservative_regrid 1 1 (fun _ _ => 1) (fun _ => 1) (fun _ => 2) o
        * (1 : ℚ))
      = ∑ _i : Fin 1, (2 : ℚ) * 1 :=
  ⟨⟨fun _ => by decide, fun _ => by simp⟩,
    C1_conservation 1 1 (fun _ _ => 1) (fun _ => 1) (fun _ => 1) (fun _ => 2)
      (fun _ => one_ne_zero) (fun _ => by simp)⟩

end Atmos
